import Mathlib

/-!
Verification of the frame encoding and packet-streaming pipeline of
thermalright_lcd_control, a shallow embedding of
src/thermalright_lcd_control/device_controller/display/display_device.py
together with its entry script run_display.py.
-/

namespace ThermalrightLcd

/-- RGB pixel as returned by PIL Image.getpixel: a red, green, blue triple. -/
abbrev RGB := Nat × Nat × Nat

/-- Scan coordinate list built at display_device.py line 59:
coords = [(x, y) for x in range(width) for y in range(height - 1, -1, -1)];
columns left to right, rows bottom to top within each column. -/
def scanCoords (width height : Nat) : List (Nat × Nat) :=
  (List.range width).flatMap (fun x => ((List.range height).reverse).map (fun y => (x, y)))

/-- Packed 16-bit color value from line 66:
val565 = ((r & 0xF8) << 8) | ((g & 0xFC) << 3) | (b >> 3). -/
def val565 (r g b : Nat) : Nat :=
  ((r &&& 0xF8) <<< 8) ||| ((g &&& 0xFC) <<< 3) ||| (b >>> 3)

/-- The two bytes emitted for one pixel, lines 67-69: lo = val565 & 0xFF,
hi = (val565 >> 8) & 0xFF, extended in the order (lo, hi). -/
def pixelBytes (r g b : Nat) : List Nat :=
  [val565 r g b &&& 0xFF, (val565 r g b >>> 8) &&& 0xFF]

/-- Body of the encoding loop at lines 61-69, for 1-based scan index i and the
coordinate pair c: either the two-byte zero marker or the pixel's two bytes. -/
def encodeStep (height : Nat) (px : Nat → Nat → RGB) (i : Nat) (c : Nat × Nat) : List Nat :=
  if i % height == 0 then [0x00, 0x00]
  else pixelBytes (px c.1 c.2).1 (px c.1 c.2).2.1 (px c.1 c.2).2.2

/-- Encoding loop of DisplayDevice._encode_image, carrying the 1-based counter of
enumerate(coords, start=1). -/
def encodeLoop (height : Nat) (px : Nat → Nat → RGB) : Nat → List (Nat × Nat) → List Nat
  | _, [] => []
  | i, c :: cs => encodeStep height px i c ++ encodeLoop height px (i + 1) cs

/-- Embedding of DisplayDevice._encode_image (display_device.py lines 57-70); the image
is modelled by its size together with a pixel lookup function. -/
def encode_image (width height : Nat) (px : Nat → Nat → RGB) : List Nat :=
  encodeLoop height px 1 (scanCoords width height)

/-- Little-endian u16 bytes, as produced by one H field of struct.pack. -/
def pack_u16le (v : Nat) : List Nat := [v % 256, v / 256 % 256]

/-- Little-endian u32 bytes, as produced by one I field of struct.pack. -/
def pack_u32le (v : Nat) : List Nat :=
  [v % 256, v / 256 % 256, v / 65536 % 256, v / 16777216 % 256]

/-- The five concrete device classes of display_device.py lines 191-241. -/
inductive Profile
  | d04185303
  | d04185304
  | d04168001
  | d04165302
  | chiZhu
deriving DecidableEq, Fintype

/-- Output width passed to each class constructor. -/
def Profile.width : Profile → Nat
  | .d04185303 => 320
  | .d04185304 => 480
  | .d04168001 => 480
  | .d04165302 => 320
  | .chiZhu => 480

/-- Output height passed to each class constructor. -/
def Profile.height : Profile → Nat
  | .d04185303 => 320
  | .d04185304 => 480
  | .d04168001 => 480
  | .d04165302 => 240
  | .chiZhu => 480

/-- Chunk size passed to each class constructor. -/
def Profile.chunk_size : Profile → Nat
  | .d04185303 => 64
  | .d04185304 => 512
  | .d04168001 => 64
  | .d04165302 => 512
  | .chiZhu => 512

/-- Which header layout a class's get_header uses: the BBHHH simple form or the
magic-prefixed 6HIH extended form. -/
inductive HeaderLayout
  | simple
  | extended
deriving DecidableEq, Fintype

/-- Layout declared by each class's get_header body. -/
def Profile.layout : Profile → HeaderLayout
  | .d04168001 => .extended
  | .d04165302 => .extended
  | _ => .simple

/-- struct.pack of BBHHH 0x69 0x88 width height 0, the simple header form used at
lines 159, 196, 204 and 241. -/
def header_simple (width height : Nat) : List Nat :=
  0x69 :: 0x88 :: (pack_u16le width ++ pack_u16le height ++ pack_u16le 0)

/-- The magic-prefixed extended header: bytes DA DB DC DD followed by struct.pack of
6HIH 2 1 width height 2 0 byteCount 0 (lines 210-213 and 220-223). -/
def header_extended (width height byteCount : Nat) : List Nat :=
  0xDA :: 0xDB :: 0xDC :: 0xDD ::
    (pack_u16le 2 ++ pack_u16le 1 ++ pack_u16le width ++ pack_u16le height ++
      pack_u16le 2 ++ pack_u16le 0 ++ pack_u32le byteCount ++ pack_u16le 0)

/-- get_header of each device class, with the literal arguments of the source. -/
def get_header : Profile → List Nat
  | .d04185303 => header_simple 320 320
  | .d04185304 => header_simple 480 480
  | .d04168001 => header_extended 480 480 460800
  | .d04165302 => header_extended 320 240 153600
  | .chiZhu => header_simple 480 480

/-- One packet of DisplayDevice._prepare_frame_packets (lines 85-89) for offset i:
chunk = img_bytes[i:i+chunk_size], zero-padded up to chunk_size when short, with the
0x00 framing byte prepended. -/
def packetChunk (chunk_size : Nat) (img_bytes : List Nat) (i : Nat) : List Nat :=
  0x00 :: ((img_bytes.drop i).take chunk_size ++
    List.replicate (chunk_size - ((img_bytes.drop i).take chunk_size).length) 0x00)

/-- Embedding of DisplayDevice._prepare_frame_packets (lines 83-90); the offsets of
range(0, len(img_bytes), chunk_size) are List.range' 0 count chunk_size where count is
the ceiling of len / chunk_size. -/
def prepare_frame_packets (chunk_size : Nat) (img_bytes : List Nat) : List (List Nat) :=
  (List.range' 0 ((img_bytes.length + chunk_size - 1) / chunk_size) chunk_size).map
    (packetChunk chunk_size img_bytes)

/-- Observable state of the generator hot-reload logic of lines 43-55: the current
generator instance (identified by an id, none before any build), the recorded
st_mtime_ns, and the supply of fresh instance ids modelling construction of new
DisplayGenerator objects. -/
structure AdapterState where
  generator : Option Nat
  last_modified : Nat
  fresh : Nat
deriving DecidableEq

/-- Embedding of DisplayDevice._get_generator (lines 43-55); mtime is the configuration
file's current st_mtime_ns. Returns the generator handed back, the successor state, and
the number of times _build_generator ran during the call. -/
def get_generator (s : AdapterState) (mtime : Nat) : Nat × AdapterState × Nat :=
  match s.generator with
  | none => (s.fresh, ⟨some s.fresh, s.last_modified, s.fresh + 1⟩, 1)
  | some g =>
    if s.last_modified < mtime then
      (s.fresh, ⟨some s.fresh, mtime, s.fresh + 1⟩, 1)
    else
      (g, s, 0)

/-- Fallible variant of the same method: buildFails models ConfigLoader raising inside
_build_generator. On an exception the error carries the state at the raise: in the
stale branch the last_modified assignment of line 50 has already run, while the
generator assignment of line 51 has not. -/
def get_generator_f (s : AdapterState) (mtime : Nat) (buildFails : Bool) :
    Except AdapterState (Nat × AdapterState × Nat) :=
  match s.generator with
  | none =>
    if buildFails then .error s
    else .ok (s.fresh, ⟨some s.fresh, s.last_modified, s.fresh + 1⟩, 1)
  | some g =>
    if s.last_modified < mtime then
      if buildFails then .error ⟨some g, mtime, s.fresh⟩
      else .ok (s.fresh, ⟨some s.fresh, mtime, s.fresh + 1⟩, 1)
    else
      .ok (g, s, 0)

/-- The for-loop over frame_packets in run (lines 99-100): ok gives each successive
transport write's outcome, indexed by a global write counter; a raised write error
stops the loop at once. Returns the packets actually written, whether the whole frame
was written, and the next write index. -/
def writePackets (ok : Nat → Bool) : Nat → List (List Nat) → List (List Nat) × Bool × Nat
  | idx, [] => ([], true, idx)
  | idx, p :: ps =>
    if ok idx then
      let r := writePackets ok (idx + 1) ps
      (p :: r.1, r.2.1, r.2.2)
    else
      ([], false, idx)

/-- The while-True loop of run (lines 92-101) unrolled over a finite list of frames,
each given as its packet list, projected to transport writes; run installs no handler,
so a write exception propagates and no later frame is processed. -/
def runFrames (ok : Nat → Bool) : Nat → List (List (List Nat)) → List (List Nat) × Bool
  | _, [] => ([], true)
  | idx, f :: fs =>
    let r := writePackets ok idx f
    if r.2.1 then
      let rest := runFrames ok r.2.2 fs
      (r.1 ++ rest.1, rest.2)
    else
      (r.1, false)

/-- First blob of send_init_sequence (line 171), bytes.fromhex of the 91-byte
handshake constant. -/
def init1 : List Nat :=
  [27, 0, 16, 208, 158, 39, 2, 142, 255, 255, 0, 0, 0, 0, 9, 0, 0, 1, 0, 2, 0, 1, 3,
   64, 0, 0, 0, 18, 52, 86, 120, 0, 0, 0, 0, 0, 0, 0, 0, 0, 0, 0, 0, 0, 0, 0, 0, 0,
   0, 0, 0, 0, 0, 0, 0, 0, 0, 0, 0, 0, 0, 0, 0, 0, 0, 0, 0, 0, 0, 0, 0, 0, 0, 0, 0,
   0, 0, 0, 0, 0, 0, 0, 0, 1, 0, 0, 0, 0, 0, 0, 0]

/-- Second blob of send_init_sequence (line 173), the 27-byte handshake constant. -/
def init2_raw : List Nat :=
  [27, 0, 16, 144, 114, 39, 2, 142, 255, 255, 0, 0, 0, 0, 9, 0, 1, 1, 0, 2, 0, 1, 3,
   0, 0, 0, 0]

/-- Sequence of buffers passed to dev.write over a ChiZhu session as run_display.main
drives it: send_init_sequence writes init1 then init2_raw once (lines 177-178), after
which USBDisplayDevice.run streams each frame's packets (lines 180-188); the frame for
image px is the packetization of get_header ++ _encode_image px with chunk size 512. -/
def chiZhu_session_writes (imgs : List (Nat → Nat → RGB)) : List (List Nat) :=
  init1 :: init2_raw ::
    (imgs.map (fun px =>
      prepare_frame_packets 512 (get_header .chiZhu ++ encode_image 480 480 px))).flatten

/-- Little-endian u32 read of the first four bytes of a byte list. -/
def decode_u32le (bs : List Nat) : Nat :=
  bs.getD 0 0 + 256 * bs.getD 1 0 + 65536 * bs.getD 2 0 + 16777216 * bs.getD 3 0

/-- The 2 by 2 test image of the specification's testable properties, pixels
(255,0,0), (0,255,0), (0,0,255), (255,255,255) in row-major order; the arguments are
the PIL getpixel column x and row y. -/
def testImage (x y : Nat) : RGB :=
  if x = 0 then (if y = 0 then (255, 0, 0) else (0, 0, 255))
  else (if y = 0 then (0, 255, 0) else (255, 255, 255))

/-! Helper lemmas on the scan order. -/

theorem range_reverse (h : Nat) :
    (List.range h).reverse = (List.range h).map (fun j => h - 1 - j) := by
  induction h with
  | zero => rfl
  | succ n ih =>
    calc (List.range (n + 1)).reverse
        = n :: (List.range n).reverse := by
          rw [List.range_succ, List.reverse_append]
          rfl
      _ = n :: (List.range n).map (fun j => n - 1 - j) := by rw [ih]
      _ = (List.range (n + 1)).map (fun j => n + 1 - 1 - j) := by
          rw [List.range_succ_eq_map, List.map_cons, List.map_map]
          refine congrArg₂ _ (by omega) ?_
          apply List.map_congr_left
          intro j _
          simp only [Function.comp_apply]
          omega

theorem scanCoords_succ (n h : Nat) :
    scanCoords (n + 1) h = scanCoords n h ++ ((List.range h).reverse).map (fun y => (n, y)) := by
  simp [scanCoords, List.range_succ]

theorem scanCoords_eq (w h : Nat) :
    scanCoords w h = (List.range (w * h)).map (fun k => (k / h, h - 1 - k % h)) := by
  rcases Nat.eq_zero_or_pos h with h0 | hpos
  · subst h0
    simp [scanCoords]
  · induction w with
    | zero => simp [scanCoords]
    | succ n ih =>
      rw [scanCoords_succ, ih, range_reverse, List.map_map]
      rw [Nat.succ_mul, List.range_add, List.map_append, List.map_map]
      congr 1
      apply List.map_congr_left
      intro j hj
      rw [List.mem_range] at hj
      have hd : (n * h + j) / h = n := by
        rw [Nat.mul_comm, Nat.mul_add_div hpos, Nat.div_eq_of_lt hj]
        omega
      have hm : (n * h + j) % h = j := by
        rw [Nat.mul_comm, Nat.mul_add_mod, Nat.mod_eq_of_lt hj]
      simp [Function.comp_apply, hd, hm]

theorem scanCoords_length (w h : Nat) : (scanCoords w h).length = w * h := by
  rw [scanCoords_eq, List.length_map, List.length_range]

/-! Helper lemmas on the encoding loop. -/

theorem encodeStep_length (h : Nat) (px : Nat → Nat → RGB) (i : Nat) (c : Nat × Nat) :
    (encodeStep h px i c).length = 2 := by
  rw [encodeStep]
  split <;> rfl

theorem encodeLoop_length (h : Nat) (px : Nat → Nat → RGB) (cs : List (Nat × Nat)) :
    ∀ i, (encodeLoop h px i cs).length = 2 * cs.length := by
  induction cs with
  | nil => intro i; rfl
  | cons c cs ih =>
    intro i
    simp only [encodeLoop, List.length_append, List.length_cons, encodeStep_length, ih]
    omega

theorem encode_image_length (w h : Nat) (px : Nat → Nat → RGB) :
    (encode_image w h px).length = 2 * (w * h) := by
  rw [encode_image, encodeLoop_length, scanCoords_length]

theorem encodeLoop_drop_take (h : Nat) (px : Nat → Nat → RGB) (f : Nat → Nat × Nat) :
    ∀ n s i k, k < n →
      ((encodeLoop h px i ((List.range' s n).map f)).drop (2 * k)).take 2 =
        encodeStep h px (i + k) (f (s + k)) := by
  intro n
  induction n with
  | zero => intro s i k hk; exact absurd hk (Nat.not_lt_zero k)
  | succ m ih =>
    intro s i k hk
    rw [List.range'_succ, List.map_cons]
    simp only [encodeLoop]
    cases k with
    | zero =>
      rw [Nat.mul_zero, List.drop_zero,
        List.take_left' (encodeStep_length h px i (f s))]
      simp
    | succ k =>
      have hl : 2 * (k + 1) = 2 + 2 * k := by omega
      rw [hl, ← List.drop_drop, List.drop_left' (encodeStep_length h px i (f s))]
      rw [ih (s + 1) (i + 1) k (by omega)]
      have e1 : i + 1 + k = i + (k + 1) := by omega
      have e2 : s + 1 + k = s + (k + 1) := by omega
      rw [e1, e2]

/-! Helper lemmas on the 16-bit packed color bytes. -/

theorem and_255_eq_mod (v : Nat) : v &&& 255 = v % 256 := by
  have h8 : (255 : Nat) = 2 ^ 8 - 1 := by norm_num
  have h9 : (256 : Nat) = 2 ^ 8 := by norm_num
  rw [h8, h9, Nat.and_pow_two_sub_one_eq_mod]

theorem val565_lt (r g b : Nat) (hb : b < 256) : val565 r g b < 2 ^ 16 := by
  have h1 : (r &&& 0xF8) <<< 8 < 2 ^ 16 := by
    rw [Nat.shiftLeft_eq]
    have ha : r &&& 0xF8 ≤ 0xF8 := Nat.and_le_right
    have := Nat.mul_le_mul_right (2 ^ 8) ha
    omega
  have h2 : (g &&& 0xFC) <<< 3 < 2 ^ 16 := by
    rw [Nat.shiftLeft_eq]
    have ha : g &&& 0xFC ≤ 0xFC := Nat.and_le_right
    have := Nat.mul_le_mul_right (2 ^ 3) ha
    omega
  have h3 : b >>> 3 < 2 ^ 16 := by
    rw [Nat.shiftRight_eq_div_pow]
    have := Nat.div_le_self b (2 ^ 3)
    omega
  exact Nat.or_lt_two_pow (Nat.or_lt_two_pow h1 h2) h3

theorem pixelBytes_eq (r g b : Nat) (hb : b < 256) :
    pixelBytes r g b = [val565 r g b % 256, val565 r g b / 256] := by
  have hv : val565 r g b < 2 ^ 16 := val565_lt r g b hb
  have hhi : (val565 r g b >>> 8) &&& 0xFF = val565 r g b / 256 := by
    rw [Nat.shiftRight_eq_div_pow, and_255_eq_mod]
    have hlt : val565 r g b / 2 ^ 8 < 256 := by
      apply Nat.div_lt_of_lt_mul
      omega
    rw [Nat.mod_eq_of_lt hlt]
    norm_num
  rw [pixelBytes, and_255_eq_mod, hhi]

/-- C1: for an image of size exactly width by height, the Pixel Encoder output has
length exactly 2 * width * height bytes; the scan visits columns left to right and,
within each column, rows bottom to top (the 0-based scan position k holds coordinate
(k / height, height - 1 - k % height)); and for every 1-based scan index i with
i mod height = 0 the output bytes in the window starting at offset 2*(i-1) are
0x00 0x00 in place of that position's pixel color. -/
theorem encode_image_length_and_marker (w h : Nat) (px : Nat → Nat → RGB) (i : Nat)
    (h1 : 1 ≤ i) (h2 : i ≤ w * h) (h3 : i % h = 0) :
    (encode_image w h px).length = 2 * (w * h) ∧
    scanCoords w h = (List.range (w * h)).map (fun k => (k / h, h - 1 - k % h)) ∧
    ((encode_image w h px).drop (2 * (i - 1))).take 2 = [0x00, 0x00] := by
  refine ⟨encode_image_length w h px, scanCoords_eq w h, ?_⟩
  rw [encode_image, scanCoords_eq, List.range_eq_range']
  rw [encodeLoop_drop_take h px _ (w * h) 0 1 (i - 1) (by omega)]
  have e : 1 + (i - 1) = i := by omega
  have e0 : (0 : Nat) + (i - 1) = i - 1 := by omega
  rw [e0, e]
  simp [encodeStep, h3]

/-- Witness for C1 on the specification's 2 by 2 test image at scan index 2. -/
theorem encode_image_length_and_marker_witness :
    (encode_image 2 2 testImage).length = 2 * (2 * 2) ∧
    scanCoords 2 2 = (List.range (2 * 2)).map (fun k => (k / 2, 2 - 1 - k % 2)) ∧
    ((encode_image 2 2 testImage).drop (2 * (2 - 1))).take 2 = [0x00, 0x00] :=
  encode_image_length_and_marker 2 2 testImage 2 (by decide) (by decide) (by decide)

/-- C4: a pixel at 1-based scan index i that is not replaced by the column marker is
emitted as the 16-bit value ((r &&& 0xF8) <<< 8) ||| ((g &&& 0xFC) <<< 3) ||| (b >>> 3)
(that is, val565 r g b), written as two bytes with the low byte first, at offsets
2*(i-1) and 2*(i-1)+1; the pixel read is the one at column (i-1)/height and row
height-1-(i-1)%height of the image. -/
theorem encode_image_pixel_bytes (w h : Nat) (px : Nat → Nat → RGB) (i : Nat)
    (h1 : 1 ≤ i) (h2 : i ≤ w * h) (h3 : i % h ≠ 0)
    (hb : (px ((i - 1) / h) (h - 1 - (i - 1) % h)).2.2 < 256) :
    ((encode_image w h px).drop (2 * (i - 1))).take 2 =
      [val565 (px ((i - 1) / h) (h - 1 - (i - 1) % h)).1
          (px ((i - 1) / h) (h - 1 - (i - 1) % h)).2.1
          (px ((i - 1) / h) (h - 1 - (i - 1) % h)).2.2 % 256,
       val565 (px ((i - 1) / h) (h - 1 - (i - 1) % h)).1
          (px ((i - 1) / h) (h - 1 - (i - 1) % h)).2.1
          (px ((i - 1) / h) (h - 1 - (i - 1) % h)).2.2 / 256] := by
  rw [encode_image, scanCoords_eq, List.range_eq_range']
  rw [encodeLoop_drop_take h px _ (w * h) 0 1 (i - 1) (by omega)]
  have e : 1 + (i - 1) = i := by omega
  have e0 : (0 : Nat) + (i - 1) = i - 1 := by omega
  rw [e0, e]
  simp only [encodeStep]
  rw [if_neg (by simpa using h3)]
  exact pixelBytes_eq _ _ _ hb

/-- Witness for C4 on the test image at scan index 1, whose pixel (0,0,255) encodes to
the value 31 with bytes 31 then 0. -/
theorem encode_image_pixel_bytes_witness :
    ((encode_image 2 2 testImage).drop (2 * (1 - 1))).take 2 =
      [val565 (testImage ((1 - 1) / 2) (2 - 1 - (1 - 1) % 2)).1
          (testImage ((1 - 1) / 2) (2 - 1 - (1 - 1) % 2)).2.1
          (testImage ((1 - 1) / 2) (2 - 1 - (1 - 1) % 2)).2.2 % 256,
       val565 (testImage ((1 - 1) / 2) (2 - 1 - (1 - 1) % 2)).1
          (testImage ((1 - 1) / 2) (2 - 1 - (1 - 1) % 2)).2.1
          (testImage ((1 - 1) / 2) (2 - 1 - (1 - 1) % 2)).2.2 / 256] :=
  encode_image_pixel_bytes 2 2 testImage 1 (by decide) (by decide) (by decide) (by decide)

/-! Helper lemmas on the packetizer. -/

theorem packetChunk_length (c : Nat) (bs : List Nat) (i : Nat) :
    (packetChunk c bs i).length = c + 1 := by
  simp [packetChunk]

theorem prepare_frame_packets_shape (c : Nat) (bs : List Nat) :
    ∀ p ∈ prepare_frame_packets c bs, p.length = c + 1 ∧ p.head? = some 0 := by
  intro p hp
  rw [prepare_frame_packets] at hp
  obtain ⟨j, _, rfl⟩ := List.mem_map.mp hp
  exact ⟨packetChunk_length c bs j, rfl⟩

theorem le_ceil_mul (c L : Nat) (hc : 0 < c) : L ≤ ((L + c - 1) / c) * c := by
  rcases Nat.eq_zero_or_pos L with h0 | hL
  · simp [h0]
  · have h1 : L + c - 1 = (L - 1) + c := by omega
    have h2 : (L + c - 1) / c = (L - 1) / c + 1 := by rw [h1, Nat.add_div_right _ hc]
    have h3 : (L - 1) / c < (L + c - 1) / c := by omega
    have h4 := (Nat.div_lt_iff_lt_mul hc).mp h3
    omega

theorem packets_flatten (c : Nat) (bs : List Nat) :
    ∀ n s, bs.length ≤ s + n * c →
      ∃ z, ((List.range' s n c).map (fun i => (packetChunk c bs i).drop 1)).flatten =
        bs.drop s ++ z := by
  intro n
  induction n with
  | zero =>
    intro s hs
    have hnil : bs.drop s = [] := List.drop_eq_nil_of_le (by omega)
    exact ⟨[], by simp [hnil]⟩
  | succ m ih =>
    intro s hs
    rw [List.range'_succ, List.map_cons, List.flatten_cons]
    obtain ⟨z, hz⟩ := ih (s + c)
      (by
        have hmc : (m + 1) * c = m * c + c := by ring
        omega)
    rw [hz]
    have hdrop1 : (packetChunk c bs s).drop 1 =
        (bs.drop s).take c ++ List.replicate (c - ((bs.drop s).take c).length) 0 := rfl
    by_cases hcase : bs.length ≤ s + c
    · have hnil : bs.drop (s + c) = [] := List.drop_eq_nil_of_le (by omega)
      have hall : (bs.drop s).take c = bs.drop s := by
        apply List.take_of_length_le
        simp [List.length_drop]
        omega
      refine ⟨List.replicate (c - ((bs.drop s).take c).length) 0 ++ z, ?_⟩
      rw [hdrop1, hnil, hall]
      simp
    · have hfull : ((bs.drop s).take c).length = c := by
        simp [List.length_take, List.length_drop]
        omega
      have hsplit : (bs.drop s).take c ++ bs.drop (s + c) = bs.drop s := by
        have hdd : (bs.drop s).drop c = bs.drop (s + c) := List.drop_drop c s bs
        rw [← hdd, List.take_append_drop]
      refine ⟨z, ?_⟩
      rw [hdrop1, hfull, Nat.sub_self, List.replicate_zero, List.append_nil,
        ← List.append_assoc, hsplit]

/-- C3: for every payload and chunk size c greater than 0, the Packetizer produces
exactly the ceiling of len(P) / c packets; every packet has length c + 1 with byte 0
equal to 0x00; and concatenating the packets' bytes after the framing byte and
truncating to len(P) reconstructs P exactly. -/
theorem prepare_frame_packets_spec (c : Nat) (bs : List Nat) (hc : 0 < c) :
    (prepare_frame_packets c bs).length = (bs.length + c - 1) / c ∧
    (∀ p ∈ prepare_frame_packets c bs, p.length = c + 1 ∧ p.head? = some 0) ∧
    (((prepare_frame_packets c bs).map (fun p => p.drop 1)).flatten).take bs.length
      = bs := by
  refine ⟨by simp [prepare_frame_packets], prepare_frame_packets_shape c bs, ?_⟩
  rw [prepare_frame_packets, List.map_map]
  obtain ⟨z, hz⟩ := packets_flatten c bs ((bs.length + c - 1) / c) 0
    (by have := le_ceil_mul c bs.length hc; omega)
  simp only [List.drop_zero] at hz
  simp only [Function.comp_def]
  rw [hz]
  exact List.take_left' rfl

/-- Witness for C3 with chunk size 3 and the payload [1, 2, 3, 4]. -/
theorem prepare_frame_packets_spec_witness :
    (prepare_frame_packets 3 [1, 2, 3, 4]).length = (([1, 2, 3, 4] : List Nat).length + 3 - 1) / 3 ∧
    (∀ p ∈ prepare_frame_packets 3 [1, 2, 3, 4], p.length = 3 + 1 ∧ p.head? = some 0) ∧
    (((prepare_frame_packets 3 [1, 2, 3, 4]).map (fun p => p.drop 1)).flatten).take
      ([1, 2, 3, 4] : List Nat).length = [1, 2, 3, 4] :=
  prepare_frame_packets_spec 3 [1, 2, 3, 4] (by decide)

/-- C2 counterexample: the extended header of device 0416:8001 is 22 bytes long (4-byte
magic plus an 18-byte 6HIH body), so the claim that every rendered header is 8 or 20
bytes long fails on this profile. -/
theorem get_header_not_8_or_20 :
    ¬ ((get_header Profile.d04168001).length = 8 ∨
       (get_header Profile.d04168001).length = 20) := by
  decide

/-- C2 amended: every profile's header is either the 8-byte simple layout (bytes 0x69,
0x88, width and height as little-endian u16, then a u16 zero) or the 22-byte extended
layout (the 4-byte magic DA DB DC DD followed by an 18-byte body of u16 mode 2, u16
sub 1, u16 width, u16 height, u16 flag 2, u16 reserved 0, u32 byteCount, u16
trailer 0). -/
theorem get_header_layouts :
    ∀ p : Profile,
      (p.layout = HeaderLayout.simple ∧ (get_header p).length = 8 ∧
        get_header p =
          0x69 :: 0x88 :: (pack_u16le p.width ++ pack_u16le p.height ++ pack_u16le 0)) ∨
      (p.layout = HeaderLayout.extended ∧ (get_header p).length = 22 ∧
        get_header p =
          0xDA :: 0xDB :: 0xDC :: 0xDD ::
            (pack_u16le 2 ++ pack_u16le 1 ++ pack_u16le p.width ++ pack_u16le p.height ++
              pack_u16le 2 ++ pack_u16le 0 ++ pack_u32le (2 * p.width * p.height) ++
              pack_u16le 0)) := by
  decide

/-- C8: the header builder is a pure function of the profile and its geometry (equal
profiles give byte-identical headers), and for two profiles with the same geometry the
headers differ exactly when the declared layouts differ. -/
theorem get_header_deterministic_and_layout :
    ∀ p q : Profile,
      (p = q → get_header p = get_header q) ∧
      (p.width = q.width → p.height = q.height →
        (get_header p ≠ get_header q ↔ p.layout ≠ q.layout)) := by
  decide

/-- Witness for C8 at the two 480 by 480 profiles with different layouts. -/
theorem get_header_deterministic_and_layout_witness :
    get_header Profile.d04185304 ≠ get_header Profile.d04168001 :=
  ((get_header_deterministic_and_layout Profile.d04185304 Profile.d04168001).2
    rfl rfl).mpr (by decide)

/-- C9: for each profile with the extended header layout, the u32 byteCount field at
byte offset 16 of the header equals 2 * width * height, which is the byte length of the
encoded pixel payload for every image of the profile's geometry. -/
theorem extended_header_byteCount (px : Nat → Nat → RGB) :
    ∀ p : Profile, p.layout = HeaderLayout.extended →
      decode_u32le ((get_header p).drop 16) = 2 * (p.width * p.height) ∧
      decode_u32le ((get_header p).drop 16) =
        (encode_image p.width p.height px).length := by
  intro p hp
  cases p with
  | d04185303 => exact absurd hp (by decide)
  | d04185304 => exact absurd hp (by decide)
  | chiZhu => exact absurd hp (by decide)
  | d04168001 =>
    refine ⟨by decide, ?_⟩
    rw [encode_image_length]
    decide
  | d04165302 =>
    refine ⟨by decide, ?_⟩
    rw [encode_image_length]
    decide

/-- Witness for C9 at the 0416:8001 profile with an all-black image. -/
theorem extended_header_byteCount_witness :
    decode_u32le ((get_header Profile.d04168001).drop 16) =
      2 * (Profile.width Profile.d04168001 * Profile.height Profile.d04168001) ∧
    decode_u32le ((get_header Profile.d04168001).drop 16) =
      (encode_image (Profile.width Profile.d04168001) (Profile.height Profile.d04168001)
        (fun _ _ => (0, 0, 0))).length :=
  extended_header_byteCount (fun _ _ => (0, 0, 0)) Profile.d04168001 rfl

/-- C5: while the recorded file timestamp has not advanced, pulls hand back the same
generator instance with no rebuild, over two consecutive pulls; once it has advanced,
the next pull performs exactly one rebuild, and the newly built generator (distinct
from the previous instance) becomes the current one with the new timestamp recorded. -/
theorem get_generator_hot_reload (s : AdapterState) (g m1 m2 : Nat)
    (hg : s.generator = some g) (hfresh : g < s.fresh) :
    (m1 ≤ s.last_modified →
      (get_generator s m1).1 = g ∧ (get_generator s m1).2.2 = 0 ∧
      (m2 ≤ ((get_generator s m1).2.1).last_modified →
        (get_generator ((get_generator s m1).2.1) m2).1 = g ∧
        (get_generator ((get_generator s m1).2.1) m2).2.2 = 0)) ∧
    (s.last_modified < m1 →
      (get_generator s m1).2.2 = 1 ∧
      (get_generator s m1).1 ≠ g ∧
      ((get_generator s m1).2.1).generator = some ((get_generator s m1).1) ∧
      ((get_generator s m1).2.1).last_modified = m1) := by
  constructor
  · intro hm1
    have h1 : get_generator s m1 = (g, s, 0) := by
      simp only [get_generator, hg]
      rw [if_neg (by omega)]
    rw [h1]
    refine ⟨rfl, rfl, ?_⟩
    intro hm2
    have hm2' : m2 ≤ s.last_modified := hm2
    have h2 : get_generator s m2 = (g, s, 0) := by
      simp only [get_generator, hg]
      rw [if_neg (by omega)]
    exact ⟨by rw [show ((g, s, 0) : Nat × AdapterState × Nat).2.1 = s from rfl, h2],
      by rw [show ((g, s, 0) : Nat × AdapterState × Nat).2.1 = s from rfl, h2]⟩
  · intro hm1
    have h1 : get_generator s m1 = (s.fresh, ⟨some s.fresh, m1, s.fresh + 1⟩, 1) := by
      simp only [get_generator, hg]
      rw [if_pos hm1]
    rw [h1]
    exact ⟨rfl, by simp; omega, rfl, rfl⟩

/-- Witness for C5: a pull at an unchanged timestamp returns the existing generator
with zero rebuilds. -/
theorem get_generator_hot_reload_witness :
    (get_generator ⟨some 0, 10, 1⟩ 10).1 = 0 ∧ (get_generator ⟨some 0, 10, 1⟩ 10).2.2 = 0 :=
  have h := (get_generator_hot_reload ⟨some 0, 10, 1⟩ 0 10 10 rfl (by decide)).1 (by decide)
  ⟨h.1, h.2.1⟩

/-- C10: a pull that sees a newer timestamp records it (line 50) before attempting the
rebuild (line 51); if the rebuild raises, the previous generator is kept while the
recorded timestamp has already advanced, so a subsequent pull at the same file
timestamp returns the old generator and performs no rebuild attempt. -/
theorem get_generator_records_before_rebuild (s : AdapterState) (g mtime : Nat)
    (hg : s.generator = some g) (hm : s.last_modified < mtime) :
    get_generator_f s mtime true = .error ⟨some g, mtime, s.fresh⟩ ∧
    get_generator ⟨some g, mtime, s.fresh⟩ mtime = (g, ⟨some g, mtime, s.fresh⟩, 0) := by
  constructor
  · simp only [get_generator_f, hg]
    rw [if_pos hm]
    exact if_pos trivial
  · simp [get_generator]

/-- Witness for C10 at a concrete adapter state and timestamp. -/
theorem get_generator_records_before_rebuild_witness :
    get_generator_f ⟨some 5, 0, 6⟩ 1 true = .error ⟨some 5, 1, 6⟩ ∧
    get_generator ⟨some 5, 1, 6⟩ 1 = (5, ⟨some 5, 1, 6⟩, 0) :=
  get_generator_records_before_rebuild ⟨some 5, 0, 6⟩ 5 1 rfl (by decide)

/-! Helper lemma for the streaming loop. -/

theorem writePackets_fail (ok : Nat → Bool) :
    ∀ (ps : List (List Nat)) (idx j : Nat), j < ps.length →
      (∀ m, m < j → ok (idx + m) = true) → ok (idx + j) = false →
      writePackets ok idx ps = (ps.take j, false, idx + j) := by
  intro ps
  induction ps with
  | nil => intro idx j hj _ _; exact absurd hj (Nat.not_lt_zero j)
  | cons p ps ih =>
    intro idx j hj hok hfail
    cases j with
    | zero =>
      have h0 : ok idx = false := by simpa using hfail
      simp [writePackets, h0]
    | succ j =>
      have h0 : ok idx = true := by simpa using hok 0 (Nat.succ_pos j)
      have hok' : ∀ m, m < j → ok (idx + 1 + m) = true := by
        intro m hm
        have := hok (m + 1) (by omega)
        rwa [show idx + (m + 1) = idx + 1 + m by omega] at this
      have hfail' : ok (idx + 1 + j) = false := by
        rwa [show idx + (j + 1) = idx + 1 + j by omega] at hfail
      have hrec := ih (idx + 1) j (by simpa using hj) hok' hfail'
      simp [writePackets, h0, hrec]
      omega

/-- C6: if the transport write of a frame's packet at in-frame position j fails (the
writes before it having succeeded), the loop writes no further packet of that frame
and none of any later frame, does not retry the failed write, and surfaces the failure
(the success flag is false): the session's write log is exactly the first j packets of
that frame. -/
theorem run_aborts_on_write_failure (ok : Nat → Bool) (idx : Nat) (ps : List (List Nat))
    (fs : List (List (List Nat))) (j : Nat) (hj : j < ps.length)
    (hok : ∀ m, m < j → ok (idx + m) = true) (hfail : ok (idx + j) = false) :
    runFrames ok idx (ps :: fs) = (ps.take j, false) := by
  have hw := writePackets_fail ok ps idx j hj hok hfail
  simp [runFrames, hw]

/-- Witness for C6: with a transport whose second write fails, a three-packet frame
followed by another frame yields only the first packet and the error. -/
theorem run_aborts_on_write_failure_witness :
    runFrames (fun n => n == 0) 0 ([[1], [2], [3]] :: [[[9]]]) = ([[1]], false) :=
  run_aborts_on_write_failure (fun n => n == 0) 0 [[1], [2], [3]] [[[9]]] 1 (by decide)
    (by decide) (by decide)

/-- C7: in a ChiZhu raw-bulk session the two fixed initialization blobs, of exactly 91
and 27 bytes, are the first two transport writes — both happen before any frame packet
— and each occurs exactly once in the whole session, regardless of how many frames are
streamed afterwards. -/
theorem chiZhu_init_once (imgs : List (Nat → Nat → RGB)) :
    init1.length = 91 ∧ init2_raw.length = 27 ∧
    (chiZhu_session_writes imgs).take 2 = [init1, init2_raw] ∧
    (chiZhu_session_writes imgs).count init1 = 1 ∧
    (chiZhu_session_writes imgs).count init2_raw = 1 := by
  have hrest : ∀ p ∈ (imgs.map (fun px =>
      prepare_frame_packets 512 (get_header .chiZhu ++ encode_image 480 480 px))).flatten,
      p.length = 513 := by
    intro p hp
    rw [List.mem_flatten] at hp
    obtain ⟨l, hl, hpl⟩ := hp
    rw [List.mem_map] at hl
    obtain ⟨px, _, rfl⟩ := hl
    exact (prepare_frame_packets_shape 512 _ p hpl).1
  have hc1 : ((imgs.map (fun px =>
      prepare_frame_packets 512 (get_header .chiZhu ++ encode_image 480 480 px))).flatten).count
        init1 = 0 := by
    rw [List.count_eq_zero]
    intro hmem
    exact absurd (hrest init1 hmem) (by decide)
  have hc2 : ((imgs.map (fun px =>
      prepare_frame_packets 512 (get_header .chiZhu ++ encode_image 480 480 px))).flatten).count
        init2_raw = 0 := by
    rw [List.count_eq_zero]
    intro hmem
    exact absurd (hrest init2_raw hmem) (by decide)
  refine ⟨rfl, rfl, rfl, ?_, ?_⟩
  · simp only [chiZhu_session_writes, List.count_cons, hc1]
    simp
    decide
  · simp only [chiZhu_session_writes, List.count_cons, hc2]
    simp
    decide

end ThermalrightLcd
